import Mathlib

/-!
Verification of the hoot service: a shallow embedding of
`src/controllers/hoots.js` over the Mongoose model `src/models/hoot.js`.

Users, hoots and comments are identified by natural-number ids; the document
store is a list of hoots together with counters for fresh ids and a logical
clock supplying the store-managed timestamps.  Each Express route handler
becomes a pure function from a request and the store state to an HTTP
response paired with the next store state.  The mongoose behaviours the
routes rely on are modelled explicitly: `findById` is a lookup returning
`Option`, a field access on a `null` document throws and is caught by the
handler's `catch` (a 500 response), `findByIdAndUpdate` applies the submitted
fields over the stored record, `save` with `timestamps: true` refreshes
`updatedAt` on a modified document, and `required` string fields reject
missing or empty values.
-/

namespace HootService

abbrev UserId := Nat
abbrev HootId := Nat
abbrev CommentId := Nat
abbrev Time := Nat

/-- An embedded comment subdocument (`commentSchema` in `src/models/hoot.js`). -/
structure Comment where
  _id : CommentId
  text : String
  author : UserId
  createdAt : Time
  updatedAt : Time
deriving DecidableEq

/-- A hoot document (`hootSchema` in `src/models/hoot.js`). -/
structure Hoot where
  _id : HootId
  title : String
  text : String
  category : String
  author : UserId
  comments : List Comment
  createdAt : Time
  updatedAt : Time
deriving DecidableEq

/-- The fixed category enumeration of `hootSchema`. -/
def categories : List String :=
  ["News", "Sports", "Games", "Movies", "Music", "Television"]

/-- Request body for `POST /` (fields the create route reads; `author` is the
client-asserted author the route overwrites). -/
structure CreateBody where
  title : Option String
  text : Option String
  category : Option String
  author : Option UserId
deriving DecidableEq

/-- Request body for `PUT /:hootId`; each present field is applied over the
stored document by `findByIdAndUpdate`. -/
structure UpdateBody where
  title : Option String
  text : Option String
  category : Option String
  author : Option UserId
deriving DecidableEq

/-- Request body for `POST /:hootId/comments`. -/
structure CommentBody where
  text : Option String
  author : Option UserId
deriving DecidableEq

/-- The document store state: stored hoots in insertion order, fresh-id
counters for store-assigned ids, and a logical clock for timestamps. -/
structure DB where
  hoots : List Hoot
  nextHootId : HootId
  nextCommentId : CommentId
  now : Time
deriving DecidableEq

/-- The HTTP responses the routes produce. -/
inductive Resp where
  | okHoot (h : Hoot)
  | okHootOrNull (h : Option Hoot)
  | okList (hs : List Hoot)
  | okMsg (m : String)
  | createdHoot (h : Hoot)
  | createdComment (c : Comment)
  | forbidden
  | serverError
deriving DecidableEq

/-- The HTTP status code of a response. -/
def Resp.status : Resp → Nat
  | .okHoot _ => 200
  | .okHootOrNull _ => 200
  | .okList _ => 200
  | .okMsg _ => 200
  | .createdHoot _ => 201
  | .createdComment _ => 201
  | .forbidden => 403
  | .serverError => 500

/-- Mongoose `Hoot.findById`. -/
def findHoot (db : DB) (hootId : HootId) : Option Hoot :=
  db.hoots.find? (fun h => h._id == hootId)

/-- Re-saving a loaded document under its id (`findByIdAndUpdate` / `save`). -/
def setHoot (db : DB) (hootId : HootId) (newH : Hoot) : DB :=
  { db with hoots := db.hoots.map (fun h => if h._id == hootId then newH else h) }

/-- Validation run by `Hoot.create`: `title`, `text`, `category` are required
(non-empty) strings and `category` must belong to the enumeration. -/
def validCreateBody (b : CreateBody) : Bool :=
  match b.title, b.text, b.category with
  | some t, some x, some c => !(t == "") && !(x == "") && categories.contains c
  | _, _, _ => false

/-- `POST /` (create a hoot): overwrite `body.author` with the caller's id,
`Hoot.create(body)` (500 on validation failure), respond 201 with the new
document whose author is displayed as the caller. -/
def createHoot (db : DB) (caller : UserId) (body : CreateBody) : Resp × DB :=
  let body := { body with author := (some caller : Option UserId) }
  if validCreateBody body then
    let h : Hoot :=
      { _id := db.nextHootId
        title := body.title.getD ""
        text := body.text.getD ""
        category := body.category.getD ""
        author := body.author.getD 0
        comments := []
        createdAt := db.now
        updatedAt := db.now }
    (.createdHoot { h with author := caller },
     { db with
        hoots := db.hoots ++ [h]
        nextHootId := db.nextHootId + 1
        now := db.now + 1 })
  else (.serverError, db)

/-- Insert a hoot into a list kept sorted by `createdAt` descending. -/
def insertByCreatedAt (h : Hoot) : List Hoot → List Hoot
  | [] => [h]
  | x :: xs =>
    if h.createdAt ≤ x.createdAt then x :: insertByCreatedAt h xs
    else h :: x :: xs

/-- `sort({ createdAt: "desc" })`: sort hoots by creation time, most recent
first. -/
def sortByCreatedAtDesc : List Hoot → List Hoot
  | [] => []
  | x :: xs => insertByCreatedAt x (sortByCreatedAtDesc xs)

/-- `GET /` (list hoots): `find({}).sort({ createdAt: "desc" })`. -/
def listHoots (db : DB) : List Hoot :=
  sortByCreatedAtDesc db.hoots

/-- `GET /:hootId`: `findById` then respond 200 with the hoot or `null`. -/
def getHoot (db : DB) (hootId : HootId) : Resp :=
  .okHootOrNull (findHoot db hootId)

/-- `findByIdAndUpdate(hootId, body, { new: true })`: apply each submitted
field over the stored record; `timestamps` refreshes `updatedAt`. -/
def applyUpdate (body : UpdateBody) (now : Time) (h : Hoot) : Hoot :=
  { h with
    title := body.title.getD h.title
    text := body.text.getD h.text
    category := body.category.getD h.category
    author := body.author.getD h.author
    updatedAt := now }

/-- `PUT /:hootId`: `findById` (a missing hoot makes `hoot.author` throw,
caught as 500); 403 unless `hoot.author.equals(req.user._id)`; otherwise
`findByIdAndUpdate` with the request body and respond 200 with the updated
document whose author is displayed as the caller. -/
def updateHoot (db : DB) (caller : UserId) (hootId : HootId) (body : UpdateBody) :
    Resp × DB :=
  match findHoot db hootId with
  | none => (.serverError, db)
  | some hoot =>
    if hoot.author = caller then
      let updated := applyUpdate body db.now hoot
      (.okHoot { updated with author := caller },
       { setHoot db hootId updated with now := db.now + 1 })
    else (.forbidden, db)

/-- `DELETE /:hootId`: `findById` (missing hoot: 500 as above); 403 unless the
caller is the author; otherwise `findByIdAndDelete` and respond 200 with the
deleted document. -/
def deleteHoot (db : DB) (caller : UserId) (hootId : HootId) : Resp × DB :=
  match findHoot db hootId with
  | none => (.serverError, db)
  | some hoot =>
    if hoot.author = caller then
      (.okHoot hoot,
       { db with
          hoots := db.hoots.filter (fun h => !(h._id == hootId))
          now := db.now + 1 })
    else (.forbidden, db)

/-- `POST /:hootId/comments`: overwrite `body.author` with the caller's id,
`findById` (missing hoot: 500), push the comment onto `hoot.comments`,
`save()` (validation failure on a missing or empty `text`: 500), respond 201
with the appended comment whose author is displayed as the caller. -/
def addComment (db : DB) (caller : UserId) (hootId : HootId) (body : CommentBody) :
    Resp × DB :=
  let body := { body with author := (some caller : Option UserId) }
  match findHoot db hootId with
  | none => (.serverError, db)
  | some hoot =>
    match body.text with
    | none => (.serverError, db)
    | some t =>
      if t == "" then (.serverError, db)
      else
        let c : Comment :=
          { _id := db.nextCommentId
            text := t
            author := body.author.getD 0
            createdAt := db.now
            updatedAt := db.now }
        let hoot' := { hoot with comments := hoot.comments ++ [c], updatedAt := db.now }
        (.createdComment { c with author := caller },
         { setHoot db hootId hoot' with
            nextCommentId := db.nextCommentId + 1
            now := db.now + 1 })

/-- `DELETE /:hootId/comments/:commentId`: `findById` (missing hoot: 500),
`hoot.comments.remove({ _id: commentId })` (removes every matching embedded
subdocument; a no-op when none matches), `save()` (which refreshes
`updatedAt` only when the document was modified), respond 200 `{message:"Ok"}`. -/
def deleteComment (db : DB) (hootId : HootId) (commentId : CommentId) : Resp × DB :=
  match findHoot db hootId with
  | none => (.serverError, db)
  | some hoot =>
    let changed := hoot.comments.any (fun c => c._id == commentId)
    let hoot' :=
      { hoot with
        comments := hoot.comments.filter (fun c => !(c._id == commentId))
        updatedAt := if changed then db.now else hoot.updatedAt }
    (.okMsg "Ok", { setHoot db hootId hoot' with now := db.now + 1 })

/-! ### Sample stores used by witnesses and counterexamples -/

/-- A hoot authored by user 1 with no comments. -/
def sampleHoot : Hoot :=
  { _id := 0, title := "A", text := "B", category := "News", author := 1,
    comments := [], createdAt := 0, updatedAt := 0 }

/-- A store holding exactly `sampleHoot`. -/
def sampleDB : DB :=
  { hoots := [sampleHoot], nextHootId := 1, nextCommentId := 0, now := 1 }

/-- A store holding no hoots at all. -/
def emptyDB : DB :=
  { hoots := [], nextHootId := 0, nextCommentId := 0, now := 0 }

/-- An update body submitting no field. -/
def emptyBody : UpdateBody :=
  { title := none, text := none, category := none, author := none }

/-- An update body submitting only a foreign author value. -/
def authorStealBody : UpdateBody :=
  { title := none, text := none, category := none, author := some 2 }

/-- A comment authored by user 2. -/
def sampleComment : Comment :=
  { _id := 0, text := "hi", author := 2, createdAt := 1, updatedAt := 1 }

/-- `sampleHoot` carrying `sampleComment`. -/
def hootWithComment : Hoot :=
  { _id := 0, title := "A", text := "B", category := "News", author := 1,
    comments := [sampleComment], createdAt := 0, updatedAt := 0 }

/-- A store holding exactly `hootWithComment`. -/
def dbWithComment : DB :=
  { hoots := [hootWithComment], nextHootId := 1, nextCommentId := 1, now := 5 }

/-! ### Helper lemmas about the store -/

/-- A hoot returned by `findHoot db hootId` carries the id it was looked up by. -/
theorem findHoot_id (db : DB) (hootId : HootId) (hoot : Hoot)
    (hfind : findHoot db hootId = some hoot) : hoot._id = hootId := by
  have h := List.find?_some hfind
  simpa using h

/-- Re-saving a document under an id that resolves leaves it findable as the
new value. -/
theorem find?_set_list (l : List Hoot) (hootId : HootId) (hoot newH : Hoot)
    (hfind : l.find? (fun h => h._id == hootId) = some hoot) (hid : newH._id = hootId) :
    (l.map (fun h => if h._id == hootId then newH else h)).find? (fun h => h._id == hootId)
      = some newH := by
  induction l with
  | nil => simp at hfind
  | cons x xs ih =>
    by_cases hx : x._id = hootId
    · simp [hx, hid]
    · have hxb : (x._id == hootId) = false := beq_eq_false_iff_ne.mpr hx
      rw [List.find?_cons_of_neg _ (by simp [hxb])] at hfind
      simp only [List.map_cons, if_neg hx]
      rw [List.find?_cons_of_neg _ (by simp [hxb])]
      exact ih hfind

/-- Re-saving a document under an id that resolves leaves it findable as the
new value. -/
theorem findHoot_setHoot (db : DB) (hootId : HootId) (hoot newH : Hoot)
    (hfind : findHoot db hootId = some hoot) (hid : newH._id = hootId) :
    findHoot (setHoot db hootId newH) hootId = some newH :=
  find?_set_list db.hoots hootId hoot newH hfind hid

theorem insertByCreatedAt_perm (h : Hoot) (l : List Hoot) :
    (insertByCreatedAt h l).Perm (h :: l) := by
  induction l with
  | nil => simp [insertByCreatedAt]
  | cons x xs ih =>
    by_cases hc : h.createdAt ≤ x.createdAt
    · simp only [insertByCreatedAt, if_pos hc]
      exact (ih.cons x).trans (List.Perm.swap h x xs)
    · simp [insertByCreatedAt, if_neg hc]

theorem sortByCreatedAtDesc_perm (l : List Hoot) : (sortByCreatedAtDesc l).Perm l := by
  induction l with
  | nil => simp [sortByCreatedAtDesc]
  | cons x xs ih =>
    exact (insertByCreatedAt_perm x (sortByCreatedAtDesc xs)).trans (ih.cons x)

theorem insertByCreatedAt_pairwise (h : Hoot) (l : List Hoot)
    (hl : l.Pairwise (fun a b => b.createdAt ≤ a.createdAt)) :
    (insertByCreatedAt h l).Pairwise (fun a b => b.createdAt ≤ a.createdAt) := by
  induction l with
  | nil => simp [insertByCreatedAt]
  | cons x xs ih =>
    rcases List.pairwise_cons.mp hl with ⟨hx, hxs⟩
    by_cases hc : h.createdAt ≤ x.createdAt
    · simp only [insertByCreatedAt, if_pos hc]
      refine List.pairwise_cons.mpr ⟨?_, ih hxs⟩
      intro y hy
      have hy' : y ∈ h :: xs := ((insertByCreatedAt_perm h xs).mem_iff).mp hy
      rcases List.mem_cons.mp hy' with hyh | hyx
      · subst hyh; exact hc
      · exact hx y hyx
    · simp only [insertByCreatedAt, if_neg hc]
      have hlt : x.createdAt < h.createdAt := not_le.mp hc
      refine List.pairwise_cons.mpr ⟨?_, hl⟩
      intro y hy
      rcases List.mem_cons.mp hy with hyx | hyxs
      · subst hyx; exact Nat.le_of_lt hlt
      · exact le_trans (hx y hyxs) (Nat.le_of_lt hlt)

theorem sortByCreatedAtDesc_pairwise (l : List Hoot) :
    (sortByCreatedAtDesc l).Pairwise (fun a b => b.createdAt ≤ a.createdAt) := by
  induction l with
  | nil => simp [sortByCreatedAtDesc]
  | cons x xs ih => exact insertByCreatedAt_pairwise x _ ih

theorem sortByCreatedAtDesc_append_fresh (l : List Hoot) (h : Hoot)
    (hgt : ∀ x ∈ l, x.createdAt < h.createdAt) :
    sortByCreatedAtDesc (l ++ [h]) = h :: sortByCreatedAtDesc l := by
  induction l with
  | nil => simp [sortByCreatedAtDesc, insertByCreatedAt]
  | cons x xs ih =>
    have hx : x.createdAt < h.createdAt := hgt x (List.mem_cons_self x xs)
    have ih' := ih (fun y hy => hgt y (List.mem_cons_of_mem x hy))
    show insertByCreatedAt x (sortByCreatedAtDesc (xs ++ [h])) = h :: sortByCreatedAtDesc (x :: xs)
    rw [ih']
    show (if x.createdAt ≤ h.createdAt then h :: insertByCreatedAt x (sortByCreatedAtDesc xs)
          else x :: h :: sortByCreatedAtDesc xs) = h :: insertByCreatedAt x (sortByCreatedAtDesc xs)
    rw [if_pos (Nat.le_of_lt hx)]

/-! ### Claims -/

/-- Claim C1: for every caller and every existing hoot whose author differs
from the caller, both `PUT /:hootId` and `DELETE /:hootId` respond 403
Forbidden and leave the store — hence the stored hoot, its fields, comments
and timestamps — completely unchanged. -/
theorem hoot_mutation_forbidden_for_non_author
    (db : DB) (caller : UserId) (hootId : HootId) (body : UpdateBody) (hoot : Hoot)
    (hfind : findHoot db hootId = some hoot) (hne : hoot.author ≠ caller) :
    updateHoot db caller hootId body = (.forbidden, db) ∧
    (updateHoot db caller hootId body).1.status = 403 ∧
    deleteHoot db caller hootId = (.forbidden, db) ∧
    (deleteHoot db caller hootId).1.status = 403 := by
  have h1 : updateHoot db caller hootId body = (.forbidden, db) := by
    simp [updateHoot, hfind, hne]
  have h2 : deleteHoot db caller hootId = (.forbidden, db) := by
    simp [deleteHoot, hfind, hne]
  exact ⟨h1, by rw [h1]; rfl, h2, by rw [h2]; rfl⟩

/-- Witness for C1: user 2 can neither update nor delete `sampleHoot`, which
user 1 authored. -/
theorem hoot_mutation_forbidden_for_non_author_witness :
    updateHoot sampleDB 2 0 emptyBody = (.forbidden, sampleDB) ∧
    (updateHoot sampleDB 2 0 emptyBody).1.status = 403 ∧
    deleteHoot sampleDB 2 0 = (.forbidden, sampleDB) ∧
    (deleteHoot sampleDB 2 0).1.status = 403 :=
  hoot_mutation_forbidden_for_non_author sampleDB 2 0 emptyBody sampleHoot
    (by decide) (by decide)

/-- Counterexample to claim C2: `sampleHoot` is authored by user 1; user 1
updates it submitting `author := 2`, and the stored hoot's author afterwards
is 2, not 1 — the route hands the whole request body to
`findByIdAndUpdate`, so a submitted author value is persisted. -/
theorem update_persists_submitted_author_cex :
    (findHoot sampleDB 0).map Hoot.author = some 1 ∧
    (findHoot (updateHoot sampleDB 1 0 authorStealBody).2 0).map Hoot.author = some 2 := by
  decide

/-- Claim C2 amended: after an author's `PUT /:hootId`, the stored author
equals the submitted author value when one is submitted and is unchanged
otherwise; only the response body displays the caller as the author. -/
theorem updateHoot_author_follows_body
    (db : DB) (caller : UserId) (hootId : HootId) (body : UpdateBody) (hoot : Hoot)
    (hfind : findHoot db hootId = some hoot) (hown : hoot.author = caller) :
    (findHoot (updateHoot db caller hootId body).2 hootId).map Hoot.author
      = some (body.author.getD hoot.author) ∧
    (updateHoot db caller hootId body).1
      = .okHoot { applyUpdate body db.now hoot with author := caller } := by
  have hid : (applyUpdate body db.now hoot)._id = hootId := by
    simpa [applyUpdate] using findHoot_id db hootId hoot hfind
  have hset := findHoot_setHoot db hootId hoot (applyUpdate body db.now hoot) hfind hid
  have hdb : (updateHoot db caller hootId body).2
      = { setHoot db hootId (applyUpdate body db.now hoot) with now := db.now + 1 } := by
    simp [updateHoot, hfind, hown]
  constructor
  · rw [hdb]
    have : findHoot { setHoot db hootId (applyUpdate body db.now hoot) with now := db.now + 1 } hootId
        = findHoot (setHoot db hootId (applyUpdate body db.now hoot)) hootId := by
      simp [findHoot, setHoot]
    rw [this, hset]
    simp [applyUpdate]
  · simp [updateHoot, hfind, hown]

/-- Witness for C2's amended theorem: user 1 updates its own hoot submitting
`author := 2`; the stored author becomes 2. -/
theorem updateHoot_author_follows_body_witness :
    (findHoot (updateHoot sampleDB 1 0 authorStealBody).2 0).map Hoot.author
      = some (authorStealBody.author.getD sampleHoot.author) ∧
    (updateHoot sampleDB 1 0 authorStealBody).1
      = .okHoot { applyUpdate authorStealBody sampleDB.now sampleHoot with author := 1 } :=
  updateHoot_author_follows_body sampleDB 1 0 authorStealBody sampleHoot
    (by decide) (by decide)

/-- Counterexample to claim C3: looking up a hoot id in an empty store yields
a 200 success response carrying `null`, not a NotFound failure. -/
theorem getHoot_missing_success_cex :
    getHoot emptyDB 0 = .okHootOrNull none ∧ (getHoot emptyDB 0).status = 200 := by
  decide

/-- Claim C3 amended: `GET /:hootId` for an id with no stored hoot responds
with success status 200 and a `null` body; the route never produces a
NotFound failure. -/
theorem getHoot_missing_returns_null_200
    (db : DB) (hootId : HootId) (h : findHoot db hootId = none) :
    getHoot db hootId = .okHootOrNull none ∧ (getHoot db hootId).status = 200 := by
  constructor
  · simp [getHoot, h]
  · simp [getHoot, h, Resp.status]

/-- Witness for C3's amended theorem: id 7 against the empty store. -/
theorem getHoot_missing_returns_null_200_witness :
    getHoot emptyDB 7 = .okHootOrNull none ∧ (getHoot emptyDB 7).status = 200 :=
  getHoot_missing_returns_null_200 emptyDB 7 (by decide)

/-- Counterexample to claim C4: updating or deleting a hoot id absent from
the store responds with the generic server error 500 (the handler
dereferences `null` and its catch block answers), not with NotFound. -/
theorem updateDelete_missing_500_cex :
    updateHoot emptyDB 1 0 emptyBody = (.serverError, emptyDB) ∧
    (updateHoot emptyDB 1 0 emptyBody).1.status = 500 ∧
    deleteHoot emptyDB 1 0 = (.serverError, emptyDB) ∧
    (deleteHoot emptyDB 1 0).1.status = 500 := by
  decide

/-- Claim C4 amended: `PUT /:hootId` and `DELETE /:hootId` on a hootId naming
no existing hoot fail with the generic server error (status 500), leaving the
store unchanged; no NotFound-specific response is produced. -/
theorem updateDelete_missing_serverError
    (db : DB) (caller : UserId) (hootId : HootId) (body : UpdateBody)
    (h : findHoot db hootId = none) :
    updateHoot db caller hootId body = (.serverError, db) ∧
    (updateHoot db caller hootId body).1.status = 500 ∧
    deleteHoot db caller hootId = (.serverError, db) ∧
    (deleteHoot db caller hootId).1.status = 500 := by
  have h1 : updateHoot db caller hootId body = (.serverError, db) := by
    simp [updateHoot, h]
  have h2 : deleteHoot db caller hootId = (.serverError, db) := by
    simp [deleteHoot, h]
  exact ⟨h1, by rw [h1]; rfl, h2, by rw [h2]; rfl⟩

/-- Witness for C4's amended theorem: id 9 against the empty store. -/
theorem updateDelete_missing_serverError_witness :
    updateHoot emptyDB 3 9 emptyBody = (.serverError, emptyDB) ∧
    (updateHoot emptyDB 3 9 emptyBody).1.status = 500 ∧
    deleteHoot emptyDB 3 9 = (.serverError, emptyDB) ∧
    (deleteHoot emptyDB 3 9).1.status = 500 :=
  updateDelete_missing_serverError emptyDB 3 9 emptyBody (by decide)

/-- Claim C5: a create request with non-empty title and text and an
enumerated category succeeds with status 201, and the returned hoot's author
is the caller and its comment sequence is empty. -/
theorem createHoot_valid_success
    (db : DB) (caller : UserId) (body : CreateBody) (t x c : String)
    (ht : body.title = some t) (htne : t ≠ "")
    (hx : body.text = some x) (hxne : x ≠ "")
    (hc : body.category = some c) (hcmem : c ∈ categories) :
    ∃ h : Hoot,
      (createHoot db caller body).1 = .createdHoot h ∧
      (createHoot db caller body).1.status = 201 ∧
      h.author = caller ∧ h.comments = [] := by
  obtain ⟨bt, bx, bc, ba⟩ := body
  have hbt : bt = some t := ht
  have hbx : bx = some x := hx
  have hbc : bc = some c := hc
  subst hbt; subst hbx; subst hbc
  have hval : validCreateBody ⟨some t, some x, some c, some caller⟩ = true := by
    simp [validCreateBody, htne, hxne, hcmem]
  refine ⟨{ _id := db.nextHootId, title := t, text := x, category := c,
            author := caller, comments := [], createdAt := db.now, updatedAt := db.now },
          ?_, ?_, rfl, rfl⟩
  · show (if validCreateBody ⟨some t, some x, some c, some caller⟩ = true then _ else _ : Resp × DB).1 = _
    rw [if_pos hval]
    rfl
  · show Resp.status (if validCreateBody ⟨some t, some x, some c, some caller⟩ = true then _ else _ : Resp × DB).1 = 201
    rw [if_pos hval]
    rfl

/-- A well-formed create request body used by witnesses. -/
def freshCreateBody : CreateBody :=
  { title := some "T", text := some "X", category := some "News", author := none }

/-- Witness for C5: creating a hoot in `sampleDB` as user 7. -/
theorem createHoot_valid_success_witness :
    ∃ h : Hoot,
      (createHoot sampleDB 7 freshCreateBody).1 = .createdHoot h ∧
      (createHoot sampleDB 7 freshCreateBody).1.status = 201 ∧
      h.author = 7 ∧ h.comments = [] :=
  createHoot_valid_success sampleDB 7 freshCreateBody "T" "X" "News" rfl (by decide) rfl
    (by decide) rfl (by decide)

/-- Claim C6: listing returns the stored hoots sorted by creation time
descending (a permutation of the store, pairwise ordered), and the hoot a
valid create request just made is the head of the next listing. -/
theorem listHoots_sorted_and_new_first
    (db : DB) (caller : UserId) (body : CreateBody) (t x c : String)
    (ht : body.title = some t) (htne : t ≠ "")
    (hx : body.text = some x) (hxne : x ≠ "")
    (hc : body.category = some c) (hcmem : c ∈ categories)
    (hclock : ∀ h ∈ db.hoots, h.createdAt < db.now) :
    (listHoots db).Perm db.hoots ∧
    (listHoots db).Pairwise (fun a b => b.createdAt ≤ a.createdAt) ∧
    ∃ h : Hoot,
      (createHoot db caller body).1 = .createdHoot h ∧
      listHoots (createHoot db caller body).2 = h :: listHoots db := by
  refine ⟨sortByCreatedAtDesc_perm db.hoots, sortByCreatedAtDesc_pairwise db.hoots, ?_⟩
  obtain ⟨bt, bx, bc, ba⟩ := body
  have hbt : bt = some t := ht
  have hbx : bx = some x := hx
  have hbc : bc = some c := hc
  subst hbt; subst hbx; subst hbc
  have hval : validCreateBody ⟨some t, some x, some c, some caller⟩ = true := by
    simp [validCreateBody, htne, hxne, hcmem]
  refine ⟨{ _id := db.nextHootId, title := t, text := x, category := c,
            author := caller, comments := [], createdAt := db.now, updatedAt := db.now },
          ?_, ?_⟩
  · show (if validCreateBody ⟨some t, some x, some c, some caller⟩ = true then _ else _ : Resp × DB).1 = _
    rw [if_pos hval]
    rfl
  · show listHoots (if validCreateBody ⟨some t, some x, some c, some caller⟩ = true then _ else _ : Resp × DB).2 = _
    rw [if_pos hval]
    exact sortByCreatedAtDesc_append_fresh db.hoots _ (fun y hy => hclock y hy)

/-- Witness for C6: creating a hoot in `sampleDB` as user 7 puts it at the
head of the listing. -/
theorem listHoots_sorted_and_new_first_witness :
    (listHoots sampleDB).Perm sampleDB.hoots ∧
    (listHoots sampleDB).Pairwise (fun a b => b.createdAt ≤ a.createdAt) ∧
    ∃ h : Hoot,
      (createHoot sampleDB 7 freshCreateBody).1 = .createdHoot h ∧
      listHoots (createHoot sampleDB 7 freshCreateBody).2 = h :: listHoots sampleDB :=
  listHoots_sorted_and_new_first sampleDB 7 freshCreateBody "T" "X" "News" rfl (by decide)
    rfl (by decide) rfl (by decide) (by decide)

/-- One `POST /:hootId/comments` call on an existing hoot with a non-empty
text: the fresh comment (store-assigned id, caller as author, current
timestamps) is appended to the end of the hoot's comment list and the parent
is re-saved. -/
theorem addComment_step
    (db : DB) (caller : UserId) (hootId : HootId) (ba : Option UserId)
    (hoot : Hoot) (t : String)
    (hfind : findHoot db hootId = some hoot) (htne : t ≠ "") :
    addComment db caller hootId ⟨some t, ba⟩
      = (.createdComment ⟨db.nextCommentId, t, caller, db.now, db.now⟩,
         { setHoot db hootId
             { hoot with
                comments := hoot.comments ++ [⟨db.nextCommentId, t, caller, db.now, db.now⟩]
                updatedAt := db.now } with
            nextCommentId := db.nextCommentId + 1
            now := db.now + 1 }) := by
  have heq : (t == "") = false := beq_eq_false_iff_ne.mpr htne
  simp [addComment, hfind, heq]

/-- Witness for the `addComment_step` lemma: user 4 comments on `sampleHoot`. -/
theorem addComment_step_witness :
    addComment sampleDB 4 0 ⟨some "hi", some 9⟩
      = (.createdComment ⟨0, "hi", 4, 1, 1⟩,
         { setHoot sampleDB 0
             { sampleHoot with
                comments := sampleHoot.comments ++ [⟨0, "hi", 4, 1, 1⟩]
                updatedAt := 1 } with
            nextCommentId := 1
            now := 2 }) :=
  addComment_step sampleDB 4 0 (some 9) sampleHoot "hi" (by decide) (by decide)

/-- Claim C7: on an existing hoot, any authenticated caller's AddComment
appends a comment authored by the caller to the end of the comment sequence;
two successive calls with identical input yield two distinct comments, both
present, in call order. -/
theorem addComment_always_appends
    (db : DB) (caller : UserId) (hootId : HootId) (body : CommentBody)
    (hoot : Hoot) (t : String)
    (hfind : findHoot db hootId = some hoot)
    (htext : body.text = some t) (htne : t ≠ "") :
    ∃ c1 c2 : Comment,
      (addComment db caller hootId body).1 = .createdComment c1 ∧
      (addComment db caller hootId body).1.status = 201 ∧
      (addComment (addComment db caller hootId body).2 caller hootId body).1
        = .createdComment c2 ∧
      c1.author = caller ∧ c2.author = caller ∧ c1 ≠ c2 ∧
      (findHoot (addComment (addComment db caller hootId body).2 caller hootId body).2
          hootId).map Hoot.comments
        = some (hoot.comments ++ [c1, c2]) := by
  obtain ⟨bt, ba⟩ := body
  have hbt : bt = some t := htext
  subst hbt
  have hid : hoot._id = hootId := findHoot_id db hootId hoot hfind
  have hstep1 := addComment_step db caller hootId ba hoot t hfind htne
  have hfind1 : findHoot (addComment db caller hootId ⟨some t, ba⟩).2 hootId
      = some { hoot with
                comments := hoot.comments ++ [⟨db.nextCommentId, t, caller, db.now, db.now⟩]
                updatedAt := db.now } := by
    rw [hstep1]
    exact findHoot_setHoot db hootId hoot _ hfind (by simpa using hid)
  have hstep2 := addComment_step (addComment db caller hootId ⟨some t, ba⟩).2 caller hootId ba
    { hoot with
        comments := hoot.comments ++ [⟨db.nextCommentId, t, caller, db.now, db.now⟩]
        updatedAt := db.now } t hfind1 htne
  have hproj1 : (addComment db caller hootId ⟨some t, ba⟩).2.nextCommentId
      = db.nextCommentId + 1 := by rw [hstep1]
  have hproj2 : (addComment db caller hootId ⟨some t, ba⟩).2.now = db.now + 1 := by
    rw [hstep1]
  rw [hproj1, hproj2] at hstep2
  refine ⟨⟨db.nextCommentId, t, caller, db.now, db.now⟩,
          ⟨db.nextCommentId + 1, t, caller, db.now + 1, db.now + 1⟩,
          ?_, ?_, ?_, rfl, rfl, ?_, ?_⟩
  · rw [hstep1]
  · rw [hstep1]
    rfl
  · rw [hstep2]
  · intro hcc
    have := congrArg Comment._id hcc
    simp at this
  · rw [hstep2]
    have hfind2 := findHoot_setHoot (addComment db caller hootId ⟨some t, ba⟩).2 hootId
      { hoot with
          comments := hoot.comments ++ [⟨db.nextCommentId, t, caller, db.now, db.now⟩]
          updatedAt := db.now }
      { hoot with
          comments := (hoot.comments ++ [⟨db.nextCommentId, t, caller, db.now, db.now⟩])
            ++ [⟨db.nextCommentId + 1, t, caller, db.now + 1, db.now + 1⟩]
          updatedAt := db.now + 1 }
      hfind1 (by simpa using hid)
    have hlift : findHoot
        { setHoot (addComment db caller hootId ⟨some t, ba⟩).2 hootId
            { hoot with
                comments := (hoot.comments ++ [⟨db.nextCommentId, t, caller, db.now, db.now⟩])
                  ++ [⟨db.nextCommentId + 1, t, caller, db.now + 1, db.now + 1⟩]
                updatedAt := db.now + 1 } with
           nextCommentId := db.nextCommentId + 1 + 1
           now := db.now + 1 + 1 } hootId
        = some { hoot with
            comments := (hoot.comments ++ [⟨db.nextCommentId, t, caller, db.now, db.now⟩])
              ++ [⟨db.nextCommentId + 1, t, caller, db.now + 1, db.now + 1⟩]
            updatedAt := db.now + 1 } := hfind2
    rw [hlift]
    simp

/-- Witness for C7: user 4 comments twice on `sampleHoot` with identical
input; both comments are appended in order with distinct ids. -/
theorem addComment_always_appends_witness :
    ∃ c1 c2 : Comment,
      (addComment sampleDB 4 0 ⟨some "hi", some 9⟩).1 = .createdComment c1 ∧
      (addComment sampleDB 4 0 ⟨some "hi", some 9⟩).1.status = 201 ∧
      (addComment (addComment sampleDB 4 0 ⟨some "hi", some 9⟩).2 4 0
          ⟨some "hi", some 9⟩).1 = .createdComment c2 ∧
      c1.author = 4 ∧ c2.author = 4 ∧ c1 ≠ c2 ∧
      (findHoot (addComment (addComment sampleDB 4 0 ⟨some "hi", some 9⟩).2 4 0
          ⟨some "hi", some 9⟩).2 0).map Hoot.comments
        = some (sampleHoot.comments ++ [c1, c2]) :=
  addComment_always_appends sampleDB 4 0 ⟨some "hi", some 9⟩ sampleHoot "hi"
    (by decide) rfl (by decide)

theorem filter_ne_id_eq_self (l : List Comment) (commentId : CommentId)
    (h : ∀ y ∈ l, y._id ≠ commentId) :
    l.filter (fun y => !(y._id == commentId)) = l := by
  induction l with
  | nil => rfl
  | cons a as ih =>
    have ha : (a._id == commentId) = false :=
      beq_eq_false_iff_ne.mpr (h a (List.mem_cons_self a as))
    simp [List.filter_cons, ha, ih (fun y hy => h y (List.mem_cons_of_mem a hy))]

/-- Counterexample to claim C8: deleting the one comment of `hootWithComment`
does remove exactly the targeted comment, but the hoot's `updatedAt` field
changes from 0 to 5 — the re-save refreshes the store-managed timestamp, so
not every other hoot field is unchanged. -/
theorem deleteComment_changes_updatedAt_cex :
    (findHoot (deleteComment dbWithComment 0 0).2 0).map Hoot.comments = some [] ∧
    (findHoot (deleteComment dbWithComment 0 0).2 0).map Hoot.updatedAt = some 5 ∧
    hootWithComment.updatedAt = 0 := by
  decide

/-- Claim C8 amended: for a hoot containing the targeted comment id (and
containing it once), DeleteComment removes exactly that comment, leaves every
other comment and their relative order unchanged, and leaves every other hoot
field unchanged except the store-managed `updatedAt` timestamp, which the
re-save refreshes. -/
theorem deleteComment_removes_exactly_target
    (db : DB) (hootId : HootId) (commentId : CommentId) (hoot : Hoot)
    (l1 l2 : List Comment) (c : Comment)
    (hfind : findHoot db hootId = some hoot)
    (hsplit : hoot.comments = l1 ++ c :: l2)
    (hcid : c._id = commentId)
    (hothers : ∀ y ∈ l1 ++ l2, y._id ≠ commentId) :
    (deleteComment db hootId commentId).1 = .okMsg "Ok" ∧
    (deleteComment db hootId commentId).1.status = 200 ∧
    findHoot (deleteComment db hootId commentId).2 hootId
      = some { hoot with comments := l1 ++ l2, updatedAt := db.now } := by
  have hid : hoot._id = hootId := findHoot_id db hootId hoot hfind
  have hcb : (c._id == commentId) = true := by simp [hcid]
  have hchanged : hoot.comments.any (fun y => y._id == commentId) = true := by
    rw [hsplit]
    exact List.any_eq_true.mpr ⟨c, by simp, hcb⟩
  have hfilter : hoot.comments.filter (fun y => !(y._id == commentId)) = l1 ++ l2 := by
    rw [hsplit, List.filter_append, List.filter_cons]
    rw [filter_ne_id_eq_self l1 commentId (fun y hy => hothers y (List.mem_append_left l2 hy)),
        filter_ne_id_eq_self l2 commentId (fun y hy => hothers y (List.mem_append_right l1 hy))]
    simp [hcb]
  have hstep : deleteComment db hootId commentId
      = (.okMsg "Ok",
         { setHoot db hootId { hoot with comments := l1 ++ l2, updatedAt := db.now } with
             now := db.now + 1 }) := by
    simp [deleteComment, hfind, hchanged, hfilter]
  refine ⟨by rw [hstep], by rw [hstep]; rfl, ?_⟩
  rw [hstep]
  exact findHoot_setHoot db hootId hoot _ hfind (by simpa using hid)

/-- Witness for C8's amended theorem: deleting the single comment of
`hootWithComment`. -/
theorem deleteComment_removes_exactly_target_witness :
    (deleteComment dbWithComment 0 0).1 = .okMsg "Ok" ∧
    (deleteComment dbWithComment 0 0).1.status = 200 ∧
    findHoot (deleteComment dbWithComment 0 0).2 0
      = some { hootWithComment with comments := ([] : List Comment) ++ [], updatedAt := 5 } :=
  deleteComment_removes_exactly_target dbWithComment 0 0 hootWithComment [] [] sampleComment
    (by decide) (by decide) (by decide) (by decide)

/-- Claim C9: deleting a comment id that occurs nowhere in an existing hoot's
comment sequence still responds 200 `{message:"Ok"}` and leaves the stored
hoot — comments included — entirely unchanged. -/
theorem deleteComment_absent_id_noop
    (db : DB) (hootId : HootId) (commentId : CommentId) (hoot : Hoot)
    (hfind : findHoot db hootId = some hoot)
    (habs : ∀ y ∈ hoot.comments, y._id ≠ commentId) :
    (deleteComment db hootId commentId).1 = .okMsg "Ok" ∧
    (deleteComment db hootId commentId).1.status = 200 ∧
    findHoot (deleteComment db hootId commentId).2 hootId = some hoot := by
  have hid : hoot._id = hootId := findHoot_id db hootId hoot hfind
  have hchanged : hoot.comments.any (fun y => y._id == commentId) = false := by
    rw [List.any_eq_false]
    intro y hy
    simpa using habs y hy
  have hfilter : hoot.comments.filter (fun y => !(y._id == commentId)) = hoot.comments :=
    filter_ne_id_eq_self hoot.comments commentId habs
  have hstep : deleteComment db hootId commentId
      = (.okMsg "Ok", { setHoot db hootId hoot with now := db.now + 1 }) := by
    simp [deleteComment, hfind, hchanged, hfilter]
  refine ⟨by rw [hstep], by rw [hstep]; rfl, ?_⟩
  rw [hstep]
  exact findHoot_setHoot db hootId hoot hoot hfind hid

/-- Witness for C9: deleting absent comment id 99 on `hootWithComment`. -/
theorem deleteComment_absent_id_noop_witness :
    (deleteComment dbWithComment 0 99).1 = .okMsg "Ok" ∧
    (deleteComment dbWithComment 0 99).1.status = 200 ∧
    findHoot (deleteComment dbWithComment 0 99).2 0 = some hootWithComment :=
  deleteComment_absent_id_noop dbWithComment 0 99 hootWithComment (by decide) (by decide)

/-- Claim C10: both create routes overwrite any client-submitted author with
the caller's id before persisting, so every hoot the create route returns and
stores, and every comment the comment route returns and stores, is authored
by the authenticated caller — whatever author the request body asserted. -/
theorem author_always_overwritten
    (db : DB) (caller : UserId) (body : CreateBody)
    (hootId : HootId) (cbody : CommentBody) :
    (∀ h : Hoot, (createHoot db caller body).1 = .createdHoot h →
        h.author = caller ∧ h ∈ (createHoot db caller body).2.hoots) ∧
    (∀ c : Comment, (addComment db caller hootId cbody).1 = .createdComment c →
        c.author = caller ∧
        ∃ h ∈ (addComment db caller hootId cbody).2.hoots, c ∈ h.comments) := by
  constructor
  · intro h hresp
    by_cases hval : validCreateBody { body with author := some caller } = true
    · have hresp' : (createHoot db caller body).1
          = .createdHoot { _id := db.nextHootId, title := body.title.getD "",
                           text := body.text.getD "", category := body.category.getD "",
                           author := caller, comments := [], createdAt := db.now,
                           updatedAt := db.now } := by
        show (if validCreateBody { body with author := some caller } = true
              then _ else _ : Resp × DB).1 = _
        rw [if_pos hval]
      rw [hresp'] at hresp
      cases hresp
      constructor
      · rfl
      · show _ ∈ (if validCreateBody { body with author := some caller } = true
                  then _ else _ : Resp × DB).2.hoots
        rw [if_pos hval]
        exact List.mem_append_right db.hoots (by simp)
    · have : (createHoot db caller body).1 = .serverError := by
        show (if validCreateBody { body with author := some caller } = true
              then _ else _ : Resp × DB).1 = _
        rw [if_neg hval]
      rw [this] at hresp
      cases hresp
  · intro c hresp
    obtain ⟨bt, ba⟩ := cbody
    cases hfind : findHoot db hootId with
    | none =>
      have : (addComment db caller hootId ⟨bt, ba⟩).1 = .serverError := by
        simp [addComment, hfind]
      rw [this] at hresp
      cases hresp
    | some hoot =>
      have hid : hoot._id = hootId := findHoot_id db hootId hoot hfind
      cases hbt : bt with
      | none =>
        have : (addComment db caller hootId ⟨bt, ba⟩).1 = .serverError := by
          simp [addComment, hfind, hbt]
        rw [this] at hresp
        cases hresp
      | some t =>
        by_cases htne : t = ""
        · have : (addComment db caller hootId ⟨bt, ba⟩).1 = .serverError := by
            simp [addComment, hfind, hbt, htne]
          rw [this] at hresp
          cases hresp
        · have hstep := addComment_step db caller hootId ba hoot t hfind htne
          rw [hbt] at hresp
          rw [hstep] at hresp
          cases hresp
          refine ⟨rfl, { hoot with
              comments := hoot.comments
                ++ [⟨db.nextCommentId, t, caller, db.now, db.now⟩]
              updatedAt := db.now }, ?_, by simp⟩
          rw [hstep]
          have hfound := findHoot_setHoot db hootId hoot
            { hoot with
                comments := hoot.comments
                  ++ [⟨db.nextCommentId, t, caller, db.now, db.now⟩]
                updatedAt := db.now } hfind (by simpa using hid)
          exact List.mem_of_find?_eq_some hfound

/-- A create request body asserting a foreign author (user 3). -/
def stealCreateBody : CreateBody :=
  { title := some "T", text := some "X", category := some "News", author := some 3 }

/-- A comment request body asserting a foreign author (user 9). -/
def stealCommentBody : CommentBody :=
  { text := some "hi", author := some 9 }

/-- The hoot persisted for `stealCreateBody` submitted to `sampleDB` by user 7. -/
def storedStealHoot : Hoot :=
  { _id := 1, title := "T", text := "X", category := "News", author := 7,
    comments := [], createdAt := 1, updatedAt := 1 }

/-- The comment persisted for `stealCommentBody` posted on `sampleHoot` by user 7. -/
def storedStealComment : Comment :=
  { _id := 0, text := "hi", author := 7, createdAt := 1, updatedAt := 1 }

/-- Witness for C10: user 7 creates a hoot asserting author 3, and user 7
comments on `sampleHoot` asserting author 9; both persisted records are
authored by 7. -/
theorem author_always_overwritten_witness :
    (storedStealHoot.author = 7 ∧
      storedStealHoot ∈ (createHoot sampleDB 7 stealCreateBody).2.hoots) ∧
    (storedStealComment.author = 7 ∧
      ∃ h ∈ (addComment sampleDB 7 0 stealCommentBody).2.hoots,
        storedStealComment ∈ h.comments) :=
  ⟨(author_always_overwritten sampleDB 7 stealCreateBody 0 stealCommentBody).1
      storedStealHoot (by decide),
   (author_always_overwritten sampleDB 7 stealCreateBody 0 stealCommentBody).2
      storedStealComment (by decide)⟩

end HootService
